import Mathlib

/-!
Verification of the MAKCU AIO device-connectivity and firmware-delivery
subsystem, shallowly embedded from the Python sources:

- `modules/serial_handler.py`: UART frame codec (`parse_uart_frames`),
  receive-buffer handling (`handle_incoming_data`), command encoding
  (`write_to_serial_with_size`, `send_command`), the pending-response slot
  (`read_response`), and the flashing flag (`set_flashing`).
- `modules/flasher.py`: the flash workflow (`flash_firmware_thread`) and its
  mutual-exclusion lock.
- `modules/config_manager.py`: firmware-asset derivation
  (`_parse_firmware_info`) and the download orchestration
  (`download_all_files_async`).
- `modules/updater.py`: version comparison (`is_different_version`).

Bytes are modelled as `Nat` (values below 256 on real inputs), byte strings
as `List Nat`, Python `bytes.find` as an optional index, and the mutable
object state as explicit records threaded through the functions.
-/

set_option autoImplicit false

/-! ## Frame codec (serial_handler.parse_uart_frames) -/

/-- The 3-byte text-frame marker `km.` (bytes of `'k'`, `'m'`, `'.'`). -/
def kmMarker : List Nat := [107, 109, 46]

/-- The 2-byte binary-frame marker `0xDE 0xAD`. -/
def deadMarker : List Nat := [222, 173]

/-- First index of byte `b` in a byte list, as Python `data.find(bytes([b]))`
restricted to the suffix being scanned; `none` plays the role of `-1`. -/
def findByteIdx (b : Nat) : List Nat → Option Nat
  | [] => none
  | x :: xs => if x = b then some 0 else (findByteIdx b xs).map (· + 1)

/-- First index at which `pat` occurs as a contiguous sub-list, as Python
`data.find(pat)` on the scanned suffix; `none` plays the role of `-1`. -/
def findSubIdx (pat : List Nat) : List Nat → Option Nat
  | [] => if pat.isPrefixOf ([] : List Nat) then some 0 else none
  | x :: xs => if pat.isPrefixOf (x :: xs) then some 0 else (findSubIdx pat xs).map (· + 1)

/-- Combine the two next-marker searches of the skip branch of
`parse_uart_frames`: `-1`/`-1` breaks, otherwise jump to the closest hit. -/
def minJump : Option Nat → Option Nat → Option Nat
  | none, none => none
  | some j, none => some j
  | none, some j => some j
  | some j1, some j2 => some (min j1 j2)

/-- One-step-per-call embedding of the `while index < len(data)` loop of
`SerialHandler.parse_uart_frames` (serial_handler.py lines 163-211), operating
on the suffix `data[index:]`.  Each loop iteration either consumes at least one
byte or breaks, so fuel `data.length + 1` always suffices (see
`parseAux_fuel_irrel`).  The returned list holds, in order, the byte content
passed to `logger.terminal_print` after each full decode: the whole text frame
including the trailing carriage return, or the binary payload. -/
def parseAux : Nat → List Nat → List (List Nat)
  | 0, _ => []
  | fuel + 1, data =>
    if data = [] then []
    else if data.take 3 = kmMarker then
      match findByteIdx 13 data with
      | some e => data.take (e + 1) :: parseAux fuel (data.drop (e + 1))
      | none => []
    else if data.take 2 = deadMarker then
      if 4 ≤ data.length then
        if 4 + (data.getD 2 0 + 256 * data.getD 3 0) ≤ data.length then
          (data.drop 4).take (data.getD 2 0 + 256 * data.getD 3 0)
            :: parseAux fuel (data.drop (4 + (data.getD 2 0 + 256 * data.getD 3 0)))
        else []
      else []
    else
      match minJump (findSubIdx kmMarker (data.drop 1)) (findSubIdx deadMarker (data.drop 1)) with
      | some j => parseAux fuel (data.drop (1 + j))
      | none => []

/-- `SerialHandler.parse_uart_frames` as a pure function from the scanned
buffer to the ordered list of decoded units it surfaces. -/
def parse_uart_frames (data : List Nat) : List (List Nat) :=
  parseAux (data.length + 1) data

/-- A well-formed wire frame: either a text frame with the given body bytes, or
a binary frame with the given payload bytes. -/
inductive Frame where
  | text (body : List Nat)
  | bin (payload : List Nat)
deriving DecidableEq

/-- Well-formedness of a frame as described by the spec: a text frame ends at
its first carriage return, so its body holds no `0x0D` byte; a binary frame
carries a 16-bit length, so its payload is shorter than 65536 bytes.  All
bytes are byte-valued. -/
def Frame.wf : Frame → Prop
  | Frame.text body => 13 ∉ body ∧ ∀ b ∈ body, b < 256
  | Frame.bin payload => payload.length < 65536 ∧ ∀ b ∈ payload, b < 256

instance : DecidablePred Frame.wf := fun f =>
  match f with
  | Frame.text body => inferInstanceAs (Decidable (13 ∉ body ∧ ∀ b ∈ body, b < 256))
  | Frame.bin payload =>
      inferInstanceAs (Decidable (payload.length < 65536 ∧ ∀ b ∈ payload, b < 256))

/-- The on-wire bytes of a frame: `km.` body `\r`, or `0xDE 0xAD` plus the
little-endian 16-bit payload length plus the payload. -/
def Frame.bytes : Frame → List Nat
  | Frame.text body => kmMarker ++ body ++ [13]
  | Frame.bin payload =>
      deadMarker ++ payload.length % 256 :: payload.length / 256 :: payload

/-- The decoded unit the parser surfaces for a frame: the whole text frame
including the trailing carriage return, or the binary payload alone. -/
def Frame.unit : Frame → List Nat
  | Frame.text body => kmMarker ++ body ++ [13]
  | Frame.bin payload => payload

/-- Concatenation of the wire bytes of a list of frames. -/
def framesBytes : List Frame → List Nat
  | [] => []
  | f :: fs => Frame.bytes f ++ framesBytes fs

/-! ## Serial handler state (buffer, pending-response slot, command encoding) -/

/-- The mutable `SerialHandler` state the receive and command paths touch:
`buffer` is `self.buffer`, `response_callback` is the single pending-response
slot (callbacks identified by a number), `log` collects the byte content of
every line handed to `logger.terminal_print` by frame decoding, and `fired`
records every invocation of a stored response callback with the bytes it was
given. -/
structure SerialSt where
  buffer : List Nat
  response_callback : Option Nat
  log : List (List Nat)
  fired : List (Nat × List Nat)
deriving DecidableEq

/-- The initial handler state: empty buffer, no pending callback. -/
def serialInit : SerialSt := ⟨[], none, [], []⟩

/-- `SerialHandler.write_to_serial_with_size` (serial_handler.py lines
306-326): the bytes handed to `serial_connection.write` — header `0xDE 0xAD`,
then the 16-bit size as LSB `size & 0xFF` and MSB `(size >> 8) & 0xFF`, then
the data bytes. -/
def write_to_serial_with_size (size : Nat) (data : List Nat) : List Nat :=
  222 :: 173 :: size % 256 :: (size / 256) % 256 :: data

/-- `SerialHandler.send_command` (serial_handler.py lines 329-338): stores the
callback in the pending-response slot, then writes the command-name bytes plus
payload under a size field of `len(payload) + 1` (one byte budgeted for the
command).  Returns the new state and the bytes written. -/
def send_command (command payload : List Nat) (callback : Option Nat) (s : SerialSt) :
    SerialSt × List Nat :=
  ({ s with response_callback := callback },
    write_to_serial_with_size (payload.length + 1) (command ++ payload))

/-- `SerialHandler.handle_incoming_data` (serial_handler.py lines 213-225):
appends the read bytes to the buffer, parses frames out of it — every decoded
unit goes to the logger — and then assigns
`self.buffer = self.buffer[len(self.buffer):]`, the empty slice of the whole
buffer.  The pending-response slot is not touched anywhere on this path. -/
def handle_incoming_data (data : List Nat) (s : SerialSt) : SerialSt :=
  let buf := s.buffer ++ data
  let units := parse_uart_frames buf
  { s with buffer := buf.drop buf.length, log := s.log ++ units }

/-- `SerialHandler.read_response` (serial_handler.py lines 107-116): when a
callback is stored, call it with the lossily decoded buffer and clear the
slot.  No code in the repository calls this method. -/
def read_response (s : SerialSt) : SerialSt :=
  match s.response_callback with
  | some cb => { s with fired := s.fired ++ [(cb, s.buffer)], response_callback := none }
  | none => s

/-- The bytes of the command string `km.version()`. -/
def kmVersionBytes : List Nat := [107, 109, 46, 118, 101, 114, 115, 105, 111, 110, 40, 41]

/-- The bytes of the expected keep-alive reply `km.MAKCU\n\r>>>`. -/
def keepAliveReply : List Nat := [107, 109, 46, 77, 65, 75, 67, 85, 10, 13, 62, 62, 62]

/-! ## Flashing flag and flash workflow (serial_handler.set_flashing, flasher) -/

/-- The link-manager state the flash workflow touches: the monitoring flag,
the connected flag, whether `flashing_lock` is currently held, and the
`is_flashing` flag. -/
structure LinkSt where
  monitoring_active : Bool
  is_connected : Bool
  flashing_locked : Bool
  is_flashing : Bool
deriving DecidableEq

/-- A primitive operation performed on the shared `flashing_lock`. -/
inductive LockOp where
  | acq
  | rel
deriving DecidableEq

/-- `SerialHandler.set_flashing` (serial_handler.py lines 261-273): acquire
the flashing lock only when it is not already held, release it only when it is
held, and set `is_flashing` to the requested status.  Returns the new state
and the lock operations actually performed. -/
def set_flashing (status : Bool) (s : LinkSt) : LinkSt × List LockOp :=
  if status then
    if s.flashing_locked = false then
      ({ s with flashing_locked := true, is_flashing := true }, [LockOp.acq])
    else
      ({ s with is_flashing := true }, [])
  else
    if s.flashing_locked = true then
      ({ s with flashing_locked := false, is_flashing := false }, [LockOp.rel])
    else
      ({ s with is_flashing := false }, [])

/-- Execute a list of lock operations against a lock state, failing (`none`)
on a second acquire of a held lock or a release of a free lock — the two
situations that deadlock or raise `RuntimeError` on a `threading.Lock`. -/
def lockOpsOk : Bool → List LockOp → Option Bool
  | locked, [] => some locked
  | locked, LockOp.acq :: rest => if locked then none else lockOpsOk true rest
  | locked, LockOp.rel :: rest => if locked then lockOpsOk false rest else none

/-- Run a sequence of `set_flashing` calls, failing if any call performs a
faulty lock operation. -/
def set_flashing_run (s : LinkSt) : List Bool → Option LinkSt
  | [] => some s
  | b :: bs =>
    match lockOpsOk s.flashing_locked (set_flashing b s).2 with
    | some _ => set_flashing_run (set_flashing b s).1 bs
    | none => none

/-- An observable event of the flash workflow, in program order. -/
inductive FlashEv where
  | setFlash (b : Bool)
  | stopMon
  | joinRead
  | startProc
  | procEnd (ok : Bool)
  | startMon
deriving DecidableEq

/-- `SerialHandler.stop_monitoring` (serial_handler.py lines 60-75): return
early when monitoring is not active; otherwise clear the monitoring flag,
close the connection when one is open, and join the monitoring thread with a
bounded timeout. -/
def stop_monitoring (s : LinkSt) : LinkSt :=
  if s.monitoring_active = false then s
  else
    let s1 := { s with monitoring_active := false }
    if s1.is_connected then { s1 with is_connected := false } else s1

/-- `SerialHandler.start_monitoring` (serial_handler.py lines 49-58): return
early when monitoring is already active; otherwise set the flag and start the
monitor thread. -/
def start_monitoring (s : LinkSt) : LinkSt :=
  if s.monitoring_active then s else { s with monitoring_active := true }

/-- `Flasher.flash_firmware_thread` (flasher.py lines 123-214) as a state and
event-trace function, given whether the binary file exists and whether the
external programmer run counts as a success (exit code zero or one of the two
output markers).  Inside the flasher lock it sets the flashing flag, stops
monitoring and joins the read task only when the link is connected, runs the
programmer, and in the `finally` block clears the flashing flag and restarts
monitoring. -/
def flash_firmware_thread (fileExists : Bool) (outcome : Bool) (s : LinkSt) :
    LinkSt × List FlashEv :=
  if fileExists = false then (s, [])
  else
    let s1 := (set_flashing true s).1
    let stepConn : LinkSt × List FlashEv :=
      if s1.is_connected then
        (stop_monitoring s1, [FlashEv.stopMon, FlashEv.joinRead])
      else (s1, [])
    let s2 := stepConn.1
    let s3 := (set_flashing false s2).1
    let s4 := start_monitoring s3
    (s4, FlashEv.setFlash true :: stepConn.2
          ++ [FlashEv.startProc, FlashEv.procEnd outcome,
              FlashEv.setFlash false, FlashEv.startMon])

/-! ## Flash-job exclusivity (flasher.flashing_lock)

`Flasher.flash_firmware` starts a thread per request with no flashing check;
each thread runs `flash_firmware_thread`, whose body executes under
`with self.flashing_lock`.  The phases of a flash job are therefore: waiting
to acquire the flasher lock, holding it (the external-programmer invocation
happens here), and done (lock released).  A job may pass from waiting to
holding only while no other job holds the lock — this is the entire
concurrency discipline in the source: there is no rejection path. -/

/-- Phase of one flash job relative to the flasher lock. -/
inductive JPhase where
  | waiting
  | holding
  | done
deriving DecidableEq

/-- Joint state of two flash jobs. -/
structure FlashSys where
  p1 : JPhase
  p2 : JPhase
deriving DecidableEq

/-- One scheduler step of the two flash jobs: a job acquires the flasher lock
(possible only while the other job does not hold it) or releases it at the end
of its `with` block. -/
inductive FStep : FlashSys → FlashSys → Prop
  | acq1 {q : JPhase} : q ≠ JPhase.holding → FStep ⟨JPhase.waiting, q⟩ ⟨JPhase.holding, q⟩
  | acq2 {q : JPhase} : q ≠ JPhase.holding → FStep ⟨q, JPhase.waiting⟩ ⟨q, JPhase.holding⟩
  | rel1 {q : JPhase} : FStep ⟨JPhase.holding, q⟩ ⟨JPhase.done, q⟩
  | rel2 {q : JPhase} : FStep ⟨q, JPhase.holding⟩ ⟨q, JPhase.done⟩

/-- States reachable from two simultaneously issued flash requests. -/
inductive FReach : FlashSys → Prop
  | init : FReach ⟨JPhase.waiting, JPhase.waiting⟩
  | step {s t : FlashSys} : FReach s → FStep s t → FReach t

/-! ## Config manager: firmware-asset derivation and download orchestration -/

/-- Insert or replace a key in an association list, keeping the position of an
existing key and appending a new one at the end — the semantics of a Python
dict assignment. -/
def setAssoc {α β : Type} [DecidableEq α] : List (α × β) → α → β → List (α × β)
  | [], k, v => [(k, v)]
  | kv :: rest, k, v => if kv.1 = k then (k, v) :: rest else kv :: setAssoc rest k v

/-- Look a key up in an association list — the semantics of a Python dict
read, `none` for a missing key. -/
def getAssoc {α β : Type} [DecidableEq α] : List (α × β) → α → Option β
  | [], _ => none
  | kv :: rest, k => if kv.1 = k then some kv.2 else getAssoc rest k

/-- Python truthiness of an optional string: `None` and the empty string are
falsy, any other string is truthy. -/
def pyTruthy : Option String → Bool
  | none => false
  | some s => !(s == "")

/-- Python `str.endswith` restricted to the exact-suffix check. -/
def pyEndsWith (s suffix : String) : Bool :=
  suffix.data.isSuffixOf s.data

/-- The BIN filename derived from a firmware entry name:
`f"{name}.bin" if not name.endswith(".bin") else name`. -/
def bin_filename (name : String) : String :=
  if pyEndsWith name ".bin" then name else name ++ ".bin"

/-- One firmware entry of the manifest: the three fields
`ConfigManager._parse_firmware_info` reads, each possibly missing. -/
structure FirmwareEntry where
  name : Option String
  primary_url : Option String
  fallback_url : Option String
deriving DecidableEq

/-- The manifest fields the orchestration logic reads and writes: the
`firmware` section as an ordered side-to-entry map, plus the
orchestrator-managed `is_online` and `last_successful_server` fields. -/
structure ConfigData where
  firmware : List (String × FirmwareEntry)
  is_online : Bool
  last_successful_server : Option String
deriving DecidableEq

/-- The derived BinaryAsset state: the three dictionaries
`ConfigManager._parse_firmware_info` rebuilds — filename to URL pair, side to
filename, filename to local-file-validity flag. -/
structure ParsedFirmware where
  bin_file_urls : List (String × (String × String))
  side_to_filename : List (String × String)
  bin_files_downloaded : List (String × Bool)
deriving DecidableEq

/-- The loop body of `_parse_firmware_info`: a firmware entry with a missing
or empty name, primary URL, or fallback URL is skipped; otherwise the three
dictionaries gain the entry under its derived filename.  `isValid` stands for
`_is_valid_file(get_download_path(filename))`. -/
def parseStep (isValid : String → Bool) (acc : ParsedFirmware)
    (si : String × FirmwareEntry) : ParsedFirmware :=
  if pyTruthy si.2.name && pyTruthy si.2.primary_url && pyTruthy si.2.fallback_url then
    let filename := bin_filename (si.2.name.getD "")
    { bin_file_urls := setAssoc acc.bin_file_urls filename
        (si.2.primary_url.getD "", si.2.fallback_url.getD ""),
      side_to_filename := setAssoc acc.side_to_filename si.1 filename,
      bin_files_downloaded := setAssoc acc.bin_files_downloaded filename (isValid filename) }
  else acc

set_option linter.unusedVariables false in
/-- `ConfigManager._parse_firmware_info` (config_manager.py lines 123-141): it
assigns fresh empty dictionaries, discarding whatever derived state `prev`
held, and then folds over the manifest's firmware section. -/
def _parse_firmware_info (isValid : String → Bool) (config : ConfigData)
    (prev : ParsedFirmware) : ParsedFirmware :=
  config.firmware.foldl (parseStep isValid) ⟨[], [], []⟩

/-- The filenames contributed by the non-skipped firmware entries of a
manifest firmware section. -/
def derivedFilenames (firmware : List (String × FirmwareEntry)) : List String :=
  (firmware.filter (fun si =>
    pyTruthy si.2.name && pyTruthy si.2.primary_url && pyTruthy si.2.fallback_url)).map
    (fun si => bin_filename (si.2.name.getD ""))

/-- `ConfigManager.load_local_config` (config_manager.py lines 111-121): when
a readable local config file exists its JSON replaces the in-memory manifest,
`download_successful` is set, and `is_online` follows the persisted
`is_online` field; on a missing or unreadable file nothing changes.  Returns
the manifest, `download_successful`, and `is_online`. -/
def load_local_config (localFile : Option ConfigData) (config0 : ConfigData) (ds0 : Bool)
    (online0 : Bool) : ConfigData × Bool × Bool :=
  match localFile with
  | some d => (d, true, d.is_online)
  | none => (config0, ds0, online0)

/-- The observable outcome of one `download_all_files_async` run: the
configs persisted to disk in order, the filenames for which a network
download is attempted, the final in-memory manifest, the final online flag,
and the final per-filename downloaded flags. -/
structure DlResult where
  persisted : List ConfigData
  attempted : List String
  final_config : ConfigData
  final_online : Bool
  final_downloaded : List (String × Bool)
deriving DecidableEq

/-- `ConfigManager.download_all_files_async` (config_manager.py lines
183-271).  `fetched` is the result of the manifest fetch after the
retry-and-fallback policy over both mirrors (`none` when both mirrors fail);
`binFetch` gives the network outcome for each attempted BIN file (the server
string on success, as `download_file_async` returns).  On manifest-fetch
failure the code marks `is_online` false and persists; the firmware assets
are then derived from whatever manifest is in memory and every one of them is
processed — a file that is already valid locally is skipped without a network
call, any other is fetched.  Afterwards the online flag is recomputed as
`any(bin_files_downloaded.values()) or download_successful` and persisted
again. -/
def download_all_files_async (isValid : String → Bool)
    (fetched : Option (ConfigData × String)) (binFetch : String → Option String)
    (config0 : ConfigData) (ds0 : Bool) (parsed0 : ParsedFirmware) : DlResult :=
  let phase1 : ConfigData × Bool :=
    match fetched with
    | some ds => ({ ds.1 with is_online := true, last_successful_server := some ds.2 }, true)
    | none => ({ config0 with is_online := false }, ds0)
  let cfg1 := phase1.1
  let ds1 := phase1.2
  let parsed1 := _parse_firmware_info isValid cfg1 parsed0
  let filenames := parsed1.bin_file_urls.map Prod.fst
  let results : List (String × Option String) := filenames.map (fun f =>
    if isValid f then (f, some (cfg1.last_successful_server.getD "github"))
    else (f, binFetch f))
  let downloaded := results.map (fun fr => (fr.1, fr.2.isSome))
  let lastServer := results.foldl (fun acc fr =>
    match fr.2 with
    | some srv => some srv
    | none => acc) cfg1.last_successful_server
  let finalOnline := downloaded.any (fun fb => fb.2) || ds1
  let cfg2 := { cfg1 with is_online := finalOnline, last_successful_server := lastServer }
  { persisted := [cfg1, cfg2],
    attempted := filenames.filter (fun f => !isValid f),
    final_config := cfg2,
    final_online := finalOnline,
    final_downloaded := downloaded }

/-- A cached local manifest with one complete firmware entry. -/
def cachedManifest : ConfigData :=
  ⟨[("left", FirmwareEntry.mk (some "fw_left") (some "u1") (some "u2"))], true, some "github"⟩

/-- The startup state after loading `cachedManifest` from disk. -/
def c7loaded : ConfigData × Bool × Bool :=
  load_local_config (some cachedManifest) ⟨[], false, none⟩ false false

/-- The orchestration run in which both mirrors fail for the manifest, no
local BIN file is valid, and every BIN network fetch also fails. -/
def c7run : DlResult :=
  download_all_files_async (fun _ => false) none (fun _ => none) c7loaded.1 c7loaded.2.1
    ⟨[], [], []⟩

/-! ## Updater: version comparison -/

/-- Python `str.strip` whitespace test over the ASCII whitespace characters
(space, tab, line feed, carriage return, vertical tab, form feed). -/
def pyIsSpace (c : Char) : Bool :=
  c = ' ' || c = '\t' || c = '\n' || c = '\r' || c = Char.ofNat 11 || c = Char.ofNat 12

/-- Python `str.strip()`: remove leading and trailing whitespace. -/
def pyStrip (s : String) : String :=
  ⟨((s.data.dropWhile pyIsSpace).reverse.dropWhile pyIsSpace).reverse⟩

/-- `Updater.is_different_version` (updater.py lines 180-189): stringify both
versions, strip surrounding whitespace, and compare for plain string
inequality. -/
def is_different_version (latest current : String) : Bool :=
  !(pyStrip latest == pyStrip current)

/-! ## Theorems -/

/-- Every non-breaking iteration of the parse loop advances `index`, so the
recursion consumes at least one byte per step; hence any fuel above the buffer
length computes the same result. -/
theorem parseAux_fuel_irrel :
    ∀ (f1 : Nat), ∀ (f2 : Nat) (data : List Nat),
      data.length < f1 → data.length < f2 → parseAux f1 data = parseAux f2 data := by
  intro f1
  induction f1 with
  | zero => intro f2 data h1 _; exact absurd h1 (Nat.not_lt_zero _)
  | succ n ih =>
    intro f2 data h1 h2
    match f2, h2 with
    | m + 1, h2 =>
      show parseAux (n + 1) data = parseAux (m + 1) data
      unfold parseAux
      by_cases hnil : data = []
      · simp [hnil]
      · simp only [if_neg hnil]
        have hlen : 0 < data.length := List.length_pos.mpr hnil
        by_cases hkm : data.take 3 = kmMarker
        · simp only [if_pos hkm]
          cases hfind : findByteIdx 13 data with
          | none => rfl
          | some e =>
            have hdrop : (data.drop (e + 1)).length < data.length := by
              rw [List.length_drop]; omega
            dsimp only
            rw [ih m (data.drop (e + 1)) (by omega) (by omega)]
        · simp only [if_neg hkm]
          by_cases hde : data.take 2 = deadMarker
          · simp only [if_pos hde]
            by_cases h4 : 4 ≤ data.length
            · simp only [if_pos h4]
              by_cases hsz : 4 + (data.getD 2 0 + 256 * data.getD 3 0) ≤ data.length
              · simp only [if_pos hsz]
                have hdrop :
                    (data.drop (4 + (data.getD 2 0 + 256 * data.getD 3 0))).length
                      < data.length := by
                  rw [List.length_drop]; omega
                rw [ih m _ (by omega) (by omega)]
              · simp only [if_neg hsz]
            · simp only [if_neg h4]
          · simp only [if_neg hde]
            cases hjump :
                minJump (findSubIdx kmMarker (data.drop 1)) (findSubIdx deadMarker (data.drop 1)) with
            | none => rfl
            | some j =>
              have hdrop : (data.drop (1 + j)).length < data.length := by
                rw [List.length_drop]; omega
              dsimp only
              rw [ih m (data.drop (1 + j)) (by omega) (by omega)]

/-- Taking exactly the length of the left part of an append returns it. -/
theorem take_len_append {α : Type} (l1 l2 : List α) : (l1 ++ l2).take l1.length = l1 := by
  induction l1 with
  | nil => simp
  | cons x xs ih => simp [ih]

/-- Dropping exactly the length of the left part of an append returns the right part. -/
theorem drop_len_append {α : Type} (l1 l2 : List α) : (l1 ++ l2).drop l1.length = l2 := by
  induction l1 with
  | nil => simp
  | cons x xs ih => simp [ih]

/-- The first occurrence of byte `b` after a prefix avoiding `b` sits right
after that prefix. -/
theorem findByteIdx_append {b : Nat} (l1 l2 : List Nat) (h : b ∉ l1) :
    findByteIdx b (l1 ++ b :: l2) = some l1.length := by
  induction l1 with
  | nil => simp [findByteIdx]
  | cons x xs ih =>
    have hx : x ≠ b := fun hxb => h (hxb ▸ List.mem_cons_self x xs)
    have hxs : b ∉ xs := fun hm => h (List.mem_cons_of_mem x hm)
    simp [findByteIdx, hx, ih hxs]

/-- Scanning a buffer that starts with a complete text frame decodes that
frame (carriage return included) and continues on the remaining bytes. -/
theorem parse_text_step (body rest : List Nat) (hb : 13 ∉ body) :
    parse_uart_frames (kmMarker ++ body ++ 13 :: rest)
      = (kmMarker ++ body ++ [13]) :: parse_uart_frames rest := by
  have hdata : kmMarker ++ body ++ 13 :: rest = (kmMarker ++ body ++ [13]) ++ rest := by
    simp
  have hne : kmMarker ++ body ++ 13 :: rest ≠ [] := by simp [kmMarker]
  have htake3 : (kmMarker ++ body ++ 13 :: rest).take 3 = kmMarker := by
    rw [show kmMarker ++ body ++ 13 :: rest = kmMarker ++ (body ++ 13 :: rest) by rfl,
      show (3 : Nat) = kmMarker.length from rfl, take_len_append]
  have h13 : (13 : Nat) ∉ kmMarker ++ body := by
    intro hm
    rcases List.mem_append.mp hm with h | h
    · simp [kmMarker] at h
    · exact hb h
  have hfind : findByteIdx 13 (kmMarker ++ body ++ 13 :: rest) = some (3 + body.length) := by
    have h1 := findByteIdx_append (kmMarker ++ body) rest h13
    have h2 : (kmMarker ++ body).length = 3 + body.length := by simp [kmMarker]; omega
    rw [h2, List.append_assoc] at h1
    exact h1
  have hlenfrm : (kmMarker ++ body ++ [13]).length = 3 + body.length + 1 := by
    simp [kmMarker]; omega
  have htakeE : (kmMarker ++ body ++ 13 :: rest).take (3 + body.length + 1)
      = kmMarker ++ body ++ [13] := by
    rw [hdata, ← hlenfrm, take_len_append]
  have hdropE : (kmMarker ++ body ++ 13 :: rest).drop (3 + body.length + 1) = rest := by
    rw [hdata, ← hlenfrm, drop_len_append]
  have hlen : (kmMarker ++ body ++ 13 :: rest).length = 3 + body.length + 1 + rest.length := by
    simp [kmMarker]; omega
  show parseAux ((kmMarker ++ body ++ 13 :: rest).length + 1) (kmMarker ++ body ++ 13 :: rest)
      = _
  rw [hlen]
  unfold parseAux
  rw [if_neg hne, if_pos htake3, hfind]
  dsimp only
  rw [htakeE, hdropE]
  have := parseAux_fuel_irrel (3 + body.length + 1 + rest.length) (rest.length + 1) rest
    (by omega) (by omega)
  rw [this]
  rfl

/-- Scanning a buffer that starts with a complete binary frame decodes its
payload and continues on the remaining bytes. -/
theorem parse_bin_step (p rest : List Nat) (hp : p.length < 65536) :
    parse_uart_frames (deadMarker ++ p.length % 256 :: p.length / 256 :: (p ++ rest))
      = p :: parse_uart_frames rest := by
  have hdata : deadMarker ++ p.length % 256 :: p.length / 256 :: (p ++ rest)
      = (deadMarker ++ p.length % 256 :: p.length / 256 :: p) ++ rest := by
    simp [deadMarker]
  have hne : deadMarker ++ p.length % 256 :: p.length / 256 :: (p ++ rest) ≠ [] := by
    simp [deadMarker]
  have htake3 :
      ¬(deadMarker ++ p.length % 256 :: p.length / 256 :: (p ++ rest)).take 3 = kmMarker := by
    simp [deadMarker, kmMarker, List.take]
  have htake2 :
      (deadMarker ++ p.length % 256 :: p.length / 256 :: (p ++ rest)).take 2 = deadMarker := by
    simp [deadMarker, List.take]
  have hlen : (deadMarker ++ p.length % 256 :: p.length / 256 :: (p ++ rest)).length
      = 4 + p.length + rest.length := by
    simp [deadMarker]; omega
  have hg2 : (deadMarker ++ p.length % 256 :: p.length / 256 :: (p ++ rest)).getD 2 0
      = p.length % 256 := by
    simp [deadMarker, List.getD]
  have hg3 : (deadMarker ++ p.length % 256 :: p.length / 256 :: (p ++ rest)).getD 3 0
      = p.length / 256 := by
    simp [deadMarker, List.getD]
  have hsize : p.length % 256 + 256 * (p.length / 256) = p.length := Nat.mod_add_div _ _
  have hdrop4 : (deadMarker ++ p.length % 256 :: p.length / 256 :: (p ++ rest)).drop 4
      = p ++ rest := by
    simp [deadMarker, List.drop]
  have hlenhd : (deadMarker ++ p.length % 256 :: p.length / 256 :: p).length
      = 4 + p.length := by
    simp [deadMarker]; omega
  have hdropE :
      (deadMarker ++ p.length % 256 :: p.length / 256 :: (p ++ rest)).drop (4 + p.length)
        = rest := by
    rw [hdata, ← hlenhd, drop_len_append]
  show parseAux
      ((deadMarker ++ p.length % 256 :: p.length / 256 :: (p ++ rest)).length + 1) _ = _
  rw [hlen]
  unfold parseAux
  rw [if_neg hne, if_neg htake3, if_pos htake2, hg2, hg3, hsize]
  rw [if_pos (by omega : 4 ≤ (deadMarker ++ p.length % 256 :: p.length / 256 :: (p ++ rest)).length)]
  rw [if_pos (by omega :
    4 + p.length ≤ (deadMarker ++ p.length % 256 :: p.length / 256 :: (p ++ rest)).length)]
  rw [hdrop4, hdropE, show p.length = (p).length from rfl, take_len_append]
  have := parseAux_fuel_irrel (4 + p.length + rest.length) (rest.length + 1) rest
    (by omega) (by omega)
  rw [this]
  rfl

/-- C1: for every byte buffer that is a concatenation of complete well-formed
frames, in arbitrary order, a single call to `SerialHandler.parse_uart_frames`
surfaces, in the original order, exactly one decoded unit per frame — for a
text frame the whole frame including the trailing carriage return, for a
binary frame its payload — and nothing else.  (The code hands each listed
unit to the logger after UTF-8 lossy decoding; the theorem states the byte
content of the units.) -/
theorem parse_uart_frames_concat (frames : List Frame) (h : ∀ f ∈ frames, f.wf) :
    parse_uart_frames (framesBytes frames) = frames.map Frame.unit := by
  induction frames with
  | nil => rfl
  | cons f fs ih =>
    have hf : f.wf := h f (List.mem_cons_self f fs)
    have hfs : ∀ g ∈ fs, g.wf := fun g hg => h g (List.mem_cons_of_mem f hg)
    cases f with
    | text body =>
      have h13 : 13 ∉ body := hf.1
      show parse_uart_frames (Frame.bytes (Frame.text body) ++ framesBytes fs) = _
      rw [show Frame.bytes (Frame.text body) ++ framesBytes fs
            = kmMarker ++ body ++ 13 :: framesBytes fs by simp [Frame.bytes]]
      rw [parse_text_step body (framesBytes fs) h13, ih hfs]
      rfl
    | bin p =>
      have hp : p.length < 65536 := hf.1
      show parse_uart_frames (Frame.bytes (Frame.bin p) ++ framesBytes fs) = _
      rw [show Frame.bytes (Frame.bin p) ++ framesBytes fs
            = deadMarker ++ p.length % 256 :: p.length / 256 :: (p ++ framesBytes fs) by
              simp [Frame.bytes]]
      rw [parse_bin_step p (framesBytes fs) hp, ih hfs]
      rfl

/-- Witness for `parse_uart_frames_concat` at a concrete three-frame buffer:
text frame `km.ab\r`, binary frame with payload `hi`, empty-body text frame. -/
theorem parse_uart_frames_concat_witness :
    (∀ f ∈ [Frame.text [97, 98], Frame.bin [104, 105], Frame.text []], f.wf)
    ∧ parse_uart_frames
        (framesBytes [Frame.text [97, 98], Frame.bin [104, 105], Frame.text []])
        = [[107, 109, 46, 97, 98, 13], [104, 105], [107, 109, 46, 13]] :=
  ⟨by decide,
    (parse_uart_frames_concat
      [Frame.text [97, 98], Frame.bin [104, 105], Frame.text []] (by decide)).trans
      (by decide)⟩

/-- C2: the code drops the bytes of a trailing incomplete frame.  Feeding the
well-formed text frame `km.ab\r` split as `km.a` then `b\r` through
`handle_incoming_data`: after the first call the buffer is empty (the
incomplete frame bytes `km.a` are NOT retained), and the two calls together
decode nothing, while decoding the unsplit bytes yields the frame — so the
concatenation of decoded units differs from the unsplit decode at this split
point.  The parse loop itself stops at the incomplete frame intending to
"wait for more data", but `handle_incoming_data` then clears the whole
buffer. -/
theorem handle_incoming_data_loses_bytes :
    (handle_incoming_data [107, 109, 46, 97] serialInit).buffer = []
    ∧ (handle_incoming_data [98, 13] (handle_incoming_data [107, 109, 46, 97] serialInit)).log
        = []
    ∧ parse_uart_frames ([107, 109, 46, 97] ++ [98, 13]) = [[107, 109, 46, 97, 98, 13]]
    ∧ (handle_incoming_data [98, 13] (handle_incoming_data [107, 109, 46, 97] serialInit)).log
        ≠ parse_uart_frames ([107, 109, 46, 97] ++ [98, 13]) := by
  refine ⟨by decide, by decide, by decide, by decide⟩

/-- C3: the pending-response slot is write-only in this codebase.
`send_command` does store the callback with overwrite semantics (at most one
outstanding), but no receive-path code ever routes a decode to
`read_response`: after the keep-alive reply `km.MAKCU\n\r>>>` arrives in full,
the decode is surfaced as a log line, the slot still holds the stored
callback, and no callback has ever fired. -/
theorem response_callback_never_consumed :
    ((send_command kmVersionBytes [] (some 2)
        ((send_command kmVersionBytes [] (some 1) serialInit).1)).1).response_callback
      = some 2
    ∧ (handle_incoming_data keepAliveReply
        ((send_command kmVersionBytes [] (some 2)
          ((send_command kmVersionBytes [] (some 1) serialInit).1)).1)).response_callback
      = some 2
    ∧ (handle_incoming_data keepAliveReply
        ((send_command kmVersionBytes [] (some 2)
          ((send_command kmVersionBytes [] (some 1) serialInit).1)).1)).fired = []
    ∧ (handle_incoming_data keepAliveReply
        ((send_command kmVersionBytes [] (some 2)
          ((send_command kmVersionBytes [] (some 1) serialInit).1)).1)).log
      = [[107, 109, 46, 77, 65, 75, 67, 85, 10, 13]] := by
  refine ⟨by decide, by decide, by decide, by decide⟩

/-- C6 counterexample: for the command `km.version()` with empty payload the
size field is `1`, but the bytes following the size field are the 12
command-name bytes — the length field does not equal the length of what
follows it. -/
theorem send_command_size_mismatch :
    (send_command kmVersionBytes [] none serialInit).2
      = [222, 173, 1, 0] ++ kmVersionBytes
    ∧ ((send_command kmVersionBytes [] none serialInit).2.drop 4).length = 12
    ∧ (send_command kmVersionBytes [] none serialInit).2.getD 2 0
        + 256 * (send_command kmVersionBytes [] none serialInit).2.getD 3 0 = 1
    ∧ (1 : Nat) ≠ 12 := by
  refine ⟨by decide, by decide, by decide, by decide⟩

/-- C6 as amended: every host-to-device command is written as `0xDE 0xAD`,
then a 16-bit little-endian size field equal to `1 + len(payload)`, then the
command-name bytes followed by the payload bytes; the size field counts the
command as a single byte, so it equals the length of the bytes that follow it
exactly when the command name is one byte long. -/
theorem send_command_encoding (command payload : List Nat) (cb : Option Nat) (s : SerialSt)
    (h : payload.length + 1 < 65536) :
    (send_command command payload cb s).2
      = 222 :: 173 :: (payload.length + 1) % 256 :: (payload.length + 1) / 256
          :: (command ++ payload)
    ∧ (send_command command payload cb s).2.getD 2 0
        + 256 * (send_command command payload cb s).2.getD 3 0 = payload.length + 1
    ∧ (payload.length + 1 = (command ++ payload).length ↔ command.length = 1) := by
  have hdiv : (payload.length + 1) / 256 % 256 = (payload.length + 1) / 256 :=
    Nat.mod_eq_of_lt (Nat.div_lt_of_lt_mul (by omega))
  refine ⟨?_, ?_, ?_⟩
  · simp [send_command, write_to_serial_with_size, hdiv]
  · simp [send_command, write_to_serial_with_size, List.getD, hdiv]
    omega
  · rw [List.length_append]
    omega

/-- Witness for `send_command_encoding` at the keep-alive command with a
one-byte payload. -/
theorem send_command_encoding_witness :
    (send_command kmVersionBytes [7] none serialInit).2
      = 222 :: 173 :: 2 :: 0 :: (kmVersionBytes ++ [7]) :=
  (send_command_encoding kmVersionBytes [7] none serialInit (by decide)).1

/-- C10: `set_flashing` never double-acquires or double-releases the shared
flashing lock.  Every sequence of calls runs without a faulty lock operation,
a `set_flashing True` on a held lock performs no acquire, a
`set_flashing False` on a free lock performs no release, and after each call
`is_flashing` equals the requested status. -/
theorem set_flashing_safe (s : LinkSt) (statuses : List Bool) :
    (set_flashing_run s statuses).isSome = true
    ∧ (s.flashing_locked = true → (set_flashing true s).2 = [])
    ∧ (s.flashing_locked = false → (set_flashing false s).2 = [])
    ∧ (∀ b, ((set_flashing b s).1).is_flashing = b) := by
  refine ⟨?_, ?_, ?_, ?_⟩
  · induction statuses generalizing s with
    | nil => rfl
    | cons b bs ih =>
      show (set_flashing_run s (b :: bs)).isSome = true
      unfold set_flashing_run
      have hok : lockOpsOk s.flashing_locked (set_flashing b s).2
          = some ((set_flashing b s).1).flashing_locked := by
        cases b <;> cases hl : s.flashing_locked <;>
          simp [set_flashing, lockOpsOk, hl]
      rw [hok]
      exact ih _
  · intro hl; simp [set_flashing, hl]
  · intro hl; simp [set_flashing, hl]
  · intro b; cases b <;> cases hl : s.flashing_locked <;> simp [set_flashing, hl]

/-- Witness for `set_flashing_safe`: on a state holding the lock,
`set_flashing True` performs no lock operation. -/
theorem set_flashing_safe_witness :
    (set_flashing true ⟨true, false, true, true⟩).2 = [] :=
  (set_flashing_safe ⟨true, false, true, true⟩ []).2.1 rfl

/-- C5 counterexample: a flash invocation issued while the link is
disconnected but monitoring is active starts the external programmer without
ever stopping monitoring or joining the read task — the stop happens only
under `if self.serial_handler.is_connected`. -/
theorem flash_skips_stop_when_disconnected :
    (flash_firmware_thread true true ⟨true, false, false, false⟩).2
      = [FlashEv.setFlash true, FlashEv.startProc, FlashEv.procEnd true,
          FlashEv.setFlash false, FlashEv.startMon]
    ∧ FlashEv.stopMon ∉ (flash_firmware_thread true true ⟨true, false, false, false⟩).2
    ∧ FlashEv.startProc ∈ (flash_firmware_thread true true ⟨true, false, false, false⟩).2 := by
  refine ⟨by decide, by decide, by decide⟩

/-- C5 as amended: for every flash invocation that reaches the programmer
step, monitoring is stopped and the read task joined before the process starts
when (and only when) the link is connected; and after the flash completes,
whether the programmer succeeded or failed, the flashing flag is cleared and
monitoring is active again, unconditionally. -/
theorem flash_firmware_thread_spec (s : LinkSt) (outcome : Bool) :
    (flash_firmware_thread true outcome s).2
      = FlashEv.setFlash true
          :: (if s.is_connected then [FlashEv.stopMon, FlashEv.joinRead] else [])
          ++ [FlashEv.startProc, FlashEv.procEnd outcome,
              FlashEv.setFlash false, FlashEv.startMon]
    ∧ ((flash_firmware_thread true outcome s).1).monitoring_active = true
    ∧ ((flash_firmware_thread true outcome s).1).is_flashing = false := by
  obtain ⟨m, c, l, fl⟩ := s
  cases m <;> cases c <;> cases l <;> cases fl <;> cases outcome <;>
    exact ⟨rfl, rfl, rfl⟩

/-- C4 counterexample: a second flash request issued while the first holds the
lock is not rejected — the model has no rejection transition at all, and the
run acquire-1, release-1, acquire-2 is a legal schedule, so the second
request's programmer invocation starts after the first completes: it was
queued. -/
theorem second_flash_runs_after_first :
    FReach ⟨JPhase.done, JPhase.holding⟩ :=
  FReach.step
    (FReach.step
      (FReach.step FReach.init (FStep.acq1 (by simp)))
      FStep.rel1)
    (FStep.acq2 (by simp))

/-- C4 as amended: at most one flash job's external-programmer invocation is
in flight at any time — in every reachable state at most one job holds the
flasher lock — but a second request issued while one is active blocks on the
lock and runs after the first completes rather than being rejected. -/
theorem flash_mutual_exclusion (s : FlashSys) (h : FReach s) :
    ¬(s.p1 = JPhase.holding ∧ s.p2 = JPhase.holding) := by
  induction h with
  | init => simp
  | step _ hstep ih =>
    cases hstep with
    | acq1 hq => intro hc; exact hq hc.2
    | acq2 hq => intro hc; exact hq hc.1
    | rel1 => intro hc; cases hc.1
    | rel2 => intro hc; cases hc.2

/-- Witness for `flash_mutual_exclusion` at the reachable state where the
first job holds the lock. -/
theorem flash_mutual_exclusion_witness :
    ¬((⟨JPhase.holding, JPhase.waiting⟩ : FlashSys).p1 = JPhase.holding
      ∧ (⟨JPhase.holding, JPhase.waiting⟩ : FlashSys).p2 = JPhase.holding) :=
  flash_mutual_exclusion ⟨JPhase.holding, JPhase.waiting⟩
    (FReach.step FReach.init (FStep.acq1 (by simp)))

/-- Updating one key of an association list leaves lookups of other keys
unchanged. -/
theorem getAssoc_setAssoc_ne {α β : Type} [DecidableEq α] (m : List (α × β)) (k k' : α)
    (v : β) (h : k' ≠ k) : getAssoc (setAssoc m k v) k' = getAssoc m k' := by
  induction m with
  | nil => simp [setAssoc, getAssoc, Ne.symm h]
  | cons kv rest ih =>
    by_cases hk : kv.1 = k
    · have hne : ¬kv.1 = k' := by rw [hk]; exact Ne.symm h
      simp [setAssoc, getAssoc, hk, hne, Ne.symm h]
    · by_cases hk' : kv.1 = k'
      · simp [setAssoc, getAssoc, hk, hk', h]
      · simp [setAssoc, getAssoc, hk, hk', ih]

/-- Folding the firmware entries never introduces a filename outside the
derived set into the dictionaries. -/
theorem parse_fold_absent (isValid : String → Bool) (l : List (String × FirmwareEntry))
    (acc : ParsedFirmware) (f : String)
    (h1 : getAssoc acc.bin_file_urls f = none)
    (h2 : getAssoc acc.bin_files_downloaded f = none)
    (hf : f ∉ derivedFilenames l) :
    getAssoc ((l.foldl (parseStep isValid) acc).bin_file_urls) f = none
    ∧ getAssoc ((l.foldl (parseStep isValid) acc).bin_files_downloaded) f = none := by
  induction l generalizing acc with
  | nil => exact ⟨h1, h2⟩
  | cons si rest ih =>
    by_cases hp : (pyTruthy si.2.name && pyTruthy si.2.primary_url
        && pyTruthy si.2.fallback_url) = true
    · have hmem : bin_filename (si.2.name.getD "") ∈ derivedFilenames (si :: rest) := by
        simp [derivedFilenames, List.filter_cons, hp]
      have hfrest : f ∉ derivedFilenames rest := by
        intro hm
        exact hf (by simp [derivedFilenames, List.filter_cons, hp] at hm ⊢; exact Or.inr hm)
      have hne : f ≠ bin_filename (si.2.name.getD "") := fun he => hf (he ▸ hmem)
      have hstep : parseStep isValid acc si
          = { bin_file_urls := setAssoc acc.bin_file_urls (bin_filename (si.2.name.getD ""))
                (si.2.primary_url.getD "", si.2.fallback_url.getD ""),
              side_to_filename := setAssoc acc.side_to_filename si.1
                (bin_filename (si.2.name.getD "")),
              bin_files_downloaded := setAssoc acc.bin_files_downloaded
                (bin_filename (si.2.name.getD ""))
                (isValid (bin_filename (si.2.name.getD ""))) } := by
        simp [parseStep, hp]
      rw [List.foldl_cons, hstep]
      exact ih _ (by simpa [getAssoc_setAssoc_ne _ _ _ _ hne] using h1)
        (by simpa [getAssoc_setAssoc_ne _ _ _ _ hne] using h2) hfrest
    · have hfrest : f ∉ derivedFilenames rest := by
        intro hm
        apply hf
        simp only [derivedFilenames, List.filter_cons, hp] at hm ⊢
        exact hm
      have hstep : parseStep isValid acc si = acc := by
        simp [parseStep, hp]
      rw [List.foldl_cons, hstep]
      exact ih _ h1 h2 hfrest

/-- C8: deriving the BinaryAsset set from the manifest firmware section is
idempotent — re-deriving from an unchanged manifest yields the identical
derived state — and fully replacing — the result never depends on the
previously derived state, so an asset absent from the new manifest is not
present afterwards — and a firmware entry with a missing (or empty) name,
primary URL or fallback URL is skipped and contributes no asset. -/
theorem parse_firmware_info_props (isValid : String → Bool) (m : ConfigData)
    (p q : ParsedFirmware) (f : String) (hf : f ∉ derivedFilenames m.firmware) :
    _parse_firmware_info isValid m (_parse_firmware_info isValid m p)
        = _parse_firmware_info isValid m p
    ∧ _parse_firmware_info isValid m p = _parse_firmware_info isValid m q
    ∧ getAssoc (_parse_firmware_info isValid m p).bin_file_urls f = none
    ∧ getAssoc (_parse_firmware_info isValid m p).bin_files_downloaded f = none := by
  refine ⟨rfl, rfl, ?_, ?_⟩
  · exact (parse_fold_absent isValid m.firmware ⟨[], [], []⟩ f rfl rfl hf).1
  · exact (parse_fold_absent isValid m.firmware ⟨[], [], []⟩ f rfl rfl hf).2

/-- Witness for `parse_firmware_info_props`: a manifest whose second firmware
entry is missing its primary URL; that entry's would-be filename is absent
from the derived asset set, from any prior derived state. -/
theorem parse_firmware_info_props_witness :
    "fwR.bin" ∉ derivedFilenames
        [("left", FirmwareEntry.mk (some "fwL") (some "u1") (some "u2")),
          ("right", FirmwareEntry.mk (some "fwR") none (some "u4"))]
    ∧ getAssoc (_parse_firmware_info (fun _ => false)
        ⟨[("left", FirmwareEntry.mk (some "fwL") (some "u1") (some "u2")),
          ("right", FirmwareEntry.mk (some "fwR") none (some "u4"))], true, none⟩
        ⟨[("fwR.bin", ("old1", "old2"))], [], []⟩).bin_file_urls "fwR.bin" = none :=
  ⟨by decide,
    (parse_firmware_info_props (fun _ => false)
      ⟨[("left", FirmwareEntry.mk (some "fwL") (some "u1") (some "u2")),
        ("right", FirmwareEntry.mk (some "fwR") none (some "u4"))], true, none⟩
      ⟨[("fwR.bin", ("old1", "old2"))], [], []⟩ ⟨[], [], []⟩ "fwR.bin" (by decide)).2.2.1⟩

/-- The key written by `setAssoc` is among the keys afterwards. -/
theorem keys_setAssoc_self {α β : Type} [DecidableEq α] (m : List (α × β)) (k : α) (v : β) :
    k ∈ (setAssoc m k v).map Prod.fst := by
  induction m with
  | nil => simp [setAssoc]
  | cons kv rest ih =>
    by_cases hk : kv.1 = k <;> simp [setAssoc, hk, ih]

/-- `setAssoc` keeps every existing key. -/
theorem keys_setAssoc_mono {α β : Type} [DecidableEq α] (m : List (α × β)) (k x : α) (v : β)
    (h : x ∈ m.map Prod.fst) : x ∈ (setAssoc m k v).map Prod.fst := by
  induction m with
  | nil => simp at h
  | cons kv rest ih =>
    rw [List.map_cons, List.mem_cons] at h
    by_cases hk : kv.1 = k
    · have hs : setAssoc (kv :: rest) k v = (k, v) :: rest := by simp [setAssoc, hk]
      rw [hs, List.map_cons, List.mem_cons]
      rcases h with h | h
      · exact Or.inl (by rw [h, hk])
      · exact Or.inr h
    · have hs : setAssoc (kv :: rest) k v = kv :: setAssoc rest k v := by simp [setAssoc, hk]
      rw [hs, List.map_cons, List.mem_cons]
      rcases h with h | h
      · exact Or.inl h
      · exact Or.inr (ih h)

/-- Every filename derived from a non-skipped firmware entry ends up among
the keys of the folded `bin_file_urls` dictionary. -/
theorem parse_fold_mem (isValid : String → Bool) (l : List (String × FirmwareEntry))
    (acc : ParsedFirmware) (f : String)
    (hf : f ∈ derivedFilenames l ∨ f ∈ acc.bin_file_urls.map Prod.fst) :
    f ∈ ((l.foldl (parseStep isValid) acc).bin_file_urls).map Prod.fst := by
  induction l generalizing acc with
  | nil =>
    rcases hf with hf | hf
    · simp [derivedFilenames] at hf
    · exact hf
  | cons si rest ih =>
    rw [List.foldl_cons]
    by_cases hp : (pyTruthy si.2.name && pyTruthy si.2.primary_url
        && pyTruthy si.2.fallback_url) = true
    · have hstep : (parseStep isValid acc si).bin_file_urls
          = setAssoc acc.bin_file_urls (bin_filename (si.2.name.getD ""))
              (si.2.primary_url.getD "", si.2.fallback_url.getD "") := by
        simp [parseStep, hp]
      rcases hf with hf | hf
      · have hsplit : f = bin_filename (si.2.name.getD "") ∨ f ∈ derivedFilenames rest := by
          simpa [derivedFilenames, List.filter_cons, hp] using hf
        rcases hsplit with h | h
        · exact ih _ (Or.inr (by rw [hstep, h]; exact keys_setAssoc_self _ _ _))
        · exact ih _ (Or.inl h)
      · exact ih _ (Or.inr (by rw [hstep]; exact keys_setAssoc_mono _ _ _ _ hf))
    · have hstep : parseStep isValid acc si = acc := by simp [parseStep, hp]
      rcases hf with hf | hf
      · have hrest : f ∈ derivedFilenames rest := by
          simpa [derivedFilenames, List.filter_cons, hp] using hf
        rw [hstep]
        exact ih _ (Or.inl hrest)
      · rw [hstep]
        exact ih _ (Or.inr hf)

/-- C7 counterexample: with a cached local manifest present, a manifest fetch
that fails on both mirrors does NOT skip the binary downloads — the asset
derived from the cached manifest is attempted — and the final persisted
online flag is true (because `download_successful` was set by loading the
local cache), not false. -/
theorem download_attempts_despite_manifest_failure :
    c7run.attempted = ["fw_left.bin"]
    ∧ c7run.attempted ≠ []
    ∧ c7run.final_online = true
    ∧ c7run.final_config.is_online = true := by
  refine ⟨by decide, by decide, by decide, by decide⟩

/-- C7 as amended: when the manifest fetch fails on both mirrors, the
orchestrator marks online=false and persists that state at that moment (the
first persisted snapshot), and the previously cached manifest remains the
readable manifest (its firmware section is unchanged at the end); but
BinaryAsset downloads are not skipped — every asset derived from the cached
manifest without a valid local file is attempted — and the final online flag
is recomputed as (any asset marked downloaded) or `download_successful`, so
it ends true whenever a local manifest had been loaded. -/
theorem download_both_mirrors_fail (isValid : String → Bool)
    (binFetch : String → Option String) (config0 : ConfigData) (ds0 : Bool)
    (parsed0 : ParsedFirmware) (f : String)
    (hf : f ∈ derivedFilenames config0.firmware) (hv : isValid f = false) :
    (download_all_files_async isValid none binFetch config0 ds0 parsed0).persisted.head?
        = some { config0 with is_online := false }
    ∧ (download_all_files_async isValid none binFetch config0 ds0 parsed0).final_config.firmware
        = config0.firmware
    ∧ f ∈ (download_all_files_async isValid none binFetch config0 ds0 parsed0).attempted
    ∧ (download_all_files_async isValid none binFetch config0 ds0 parsed0).final_online
        = ((download_all_files_async isValid none binFetch config0 ds0
              parsed0).final_downloaded.any (fun fb => fb.2) || ds0)
    ∧ (ds0 = true →
        (download_all_files_async isValid none binFetch config0 ds0 parsed0).final_online
          = true) := by
  refine ⟨rfl, rfl, ?_, rfl, ?_⟩
  · have hkeys : f ∈ ((_parse_firmware_info isValid { config0 with is_online := false }
        parsed0).bin_file_urls).map Prod.fst :=
      parse_fold_mem isValid config0.firmware ⟨[], [], []⟩ f (Or.inl hf)
    show f ∈ (((_parse_firmware_info isValid { config0 with is_online := false }
        parsed0).bin_file_urls).map Prod.fst).filter (fun g => !isValid g)
    exact List.mem_filter.mpr ⟨hkeys, by simp [hv]⟩
  · intro hds
    show (_ || ds0) = true
    rw [hds, Bool.or_true]

/-- Witness for `download_both_mirrors_fail` at the cached-manifest run. -/
theorem download_both_mirrors_fail_witness :
    "fw_left.bin" ∈ (download_all_files_async (fun _ => false) none (fun _ => none)
        cachedManifest true ⟨[], [], []⟩).attempted :=
  (download_both_mirrors_fail (fun _ => false) (fun _ => none) cachedManifest true
    ⟨[], [], []⟩ "fw_left.bin" (by decide) rfl).2.2.1

/-- C9 counterexample: `is_different_version` is not exact string comparison —
it strips surrounding whitespace first, so the unequal strings `" 2.7"` and
`"2.7"` are reported as not different. -/
theorem is_different_version_not_exact :
    is_different_version " 2.7" "2.7" = false ∧ " 2.7" ≠ "2.7" := by
  refine ⟨by decide, by decide⟩

/-- C9 as amended: `is_different_version` decides the update paths by plain
string comparison after stripping surrounding whitespace — never numeric or
semantic ordering.  Equal strings report no difference, the comparison is
exactly equality of the stripped strings (so strings differing only in
surrounding whitespace also report no difference), and the spec's edge cases
hold: `2.7` vs `2.7` is no update, `2.7` vs `2.8` differs, and `2.70` vs
`2.7` differs. -/
theorem is_different_version_spec (a b : String) :
    (a = b → is_different_version a b = false)
    ∧ (is_different_version a b = false ↔ pyStrip a = pyStrip b)
    ∧ is_different_version "2.7" "2.7" = false
    ∧ is_different_version "2.7" "2.8" = true
    ∧ is_different_version "2.70" "2.7" = true := by
  refine ⟨?_, ?_, by decide, by decide, by decide⟩
  · intro h
    rw [h]
    simp [is_different_version]
  · simp [is_different_version]

/-- Witness for `is_different_version_spec`: equal concrete strings report no
difference. -/
theorem is_different_version_spec_witness :
    is_different_version "3.2.1" "3.2.1" = false :=
  (is_different_version_spec "3.2.1" "3.2.1").1 rfl
